import Mathlib

/-!
# log-cache-cli: the plugin entry point (`main.go`)

A shallow embedding of `LogCacheCLI.Run`, `LogCacheCLI.GetMetadata` and
`linesWriter`, together with the parts of Go's `strconv` and `time` that the
entry point calls.

* Go strings are immutable byte sequences (`GoString`); `string(data)` keeps
  the bytes of `data` unchanged.
* `int64` values are integers reduced to the range `[-2^63, 2^63)`.
* Package `command` (`command.Tail`, `command.Meta`, `command.Query`) and the
  CLI connection are not part of `main.go`; they are parameters of the
  embedding (`Deps`).  What such a function does with the `io.Writer` it is
  handed is a tree of writes whose continuation receives the result of each
  `Write`; `command.Query` may in addition call the function value it is given.
* `log.Fatalf` ends the process; `Exit.exited msg` records the message.
* Every call that leaves `main.go` is appended to a call log, so that "invoked
  once" and "not invoked" are statements about that log.
-/

namespace LogCacheCLI

/-! ## Strings and `strconv` -/

/-- A Go `string`: an immutable sequence of bytes. -/
structure GoString where
  bytes : List UInt8
deriving DecidableEq, Repr

/-- A Go string literal (Go source files are UTF-8). -/
def str (s : String) : GoString := ⟨s.toUTF8.data.toList⟩

instance : Append GoString := ⟨fun a b => ⟨a.bytes ++ b.bytes⟩⟩

/-- The conversion `string(data)` of a byte slice. -/
def stringOfBytes (data : List UInt8) : GoString := ⟨data⟩

/-- Decimal digits of `u`, most significant first, pushed in front of `acc`.
The fuel bounds the number of digits written (a `uint64` has at most 20). -/
def formatDigits : Nat → Nat → List UInt8 → List UInt8
  | 0, _, acc => acc
  | fuel + 1, u, acc =>
    if u < 10 then UInt8.ofNat (48 + u) :: acc
    else formatDigits fuel (u / 10) (UInt8.ofNat (48 + u % 10) :: acc)

/-- Go's `strconv.FormatInt(i, 10)` for an `int64` value `i`: the magnitude in
decimal, preceded by `-` when `i` is negative. -/
def FormatInt (i : Int) : GoString :=
  if i < 0 then ⟨45 :: formatDigits 20 i.natAbs []⟩
  else ⟨formatDigits 20 i.toNat []⟩

/-- The two errors of `strconv`. -/
inductive NumError where
  | ErrSyntax
  | ErrRange
deriving DecidableEq, Repr

/-- The digit loop of `strconv.ParseUint(s, 10, 64)`: `n` is the value read so
far.  A byte outside `0`..`9` is a syntax error; a value above `2^64 - 1` is a
range error. -/
def parseUintLoop : List UInt8 → Nat → Except NumError Nat
  | [], n => .ok n
  | c :: cs, n =>
    if 48 ≤ c.toNat ∧ c.toNat ≤ 57 then
      if n ≥ (2 ^ 64 - 1) / 10 + 1 then .error .ErrRange
      else if n * 10 + (c.toNat - 48) > 2 ^ 64 - 1 then .error .ErrRange
      else parseUintLoop cs (n * 10 + (c.toNat - 48))
    else .error .ErrSyntax

/-- Go's `strconv.ParseUint(s, 10, 64)`. -/
def ParseUint (s : List UInt8) : Except NumError Nat :=
  match s with
  | [] => .error .ErrSyntax
  | _ => parseUintLoop s 0

/-- Go's `strconv.ParseInt(s, 10, 64)`: an optional sign, then `ParseUint`,
then the range check of a signed 64-bit value. -/
def ParseInt (s : GoString) : Except NumError Int :=
  match s.bytes with
  | [] => .error .ErrSyntax
  | c :: cs =>
    let neg := c = 45
    let rest := if c = 43 ∨ c = 45 then cs else c :: cs
    match ParseUint rest with
    | .error e => .error e
    | .ok un =>
      if ¬ neg ∧ un ≥ 2 ^ 63 then .error .ErrRange
      else if neg ∧ un > 2 ^ 63 then .error .ErrRange
      else if neg then .ok (-(un : Int)) else .ok (un : Int)

/-! ## `time.Time` -/

/-- Reduction of an integer to the `int64` range (two's complement). -/
def wrapInt64 (x : Int) : Int := (x + 2 ^ 63) % 2 ^ 64 - 2 ^ 63

/-- A `time.Time`, as far as `UnixNano` reads it: seconds since the Unix epoch
and nanoseconds within the second. -/
structure Time where
  unixSec : Int
  nsec : Nat
deriving DecidableEq, Repr

/-- Go's `Time.UnixNano`: `unixSec * 1e9 + nsec` in `int64` arithmetic. -/
def Time.UnixNano (t : Time) : Int := wrapInt64 (t.unixSec * 1000000000 + t.nsec)

/-! ## `linesWriter` -/

/-- The type `linesWriter` of `main.go`. -/
structure linesWriter where
  lines : List GoString
deriving DecidableEq, Repr

/-- The method `linesWriter.Write`: appends `string(data)` to `lines` and
returns `(len(data), nil)`. -/
def linesWriter.Write (w : linesWriter) (data : List UInt8) :
    (Nat × Option GoString) × linesWriter :=
  ((data.length, none), ⟨w.lines ++ [stringOfBytes data]⟩)

/-- The writer `os.Stdout`: the chunks written so far; a write is recorded and
reported as complete. -/
def stdoutWrite (out : List (List UInt8)) (data : List UInt8) :
    (Nat × Option GoString) × List (List UInt8) :=
  ((data.length, none), out ++ [data])

/-! ## Package `command` and the connection, as parameters -/

/-- How a call ends: it returns a value, or `log.Fatalf` ends the process. -/
inductive Exit (α : Type) where
  | returned (a : α)
  | exited (msg : GoString)
deriving DecidableEq, Repr

/-- The behaviour of `command.Tail` or `command.Meta` on the writer it is
given: it returns (leaving the outside world in state `w`), ends the process,
or writes `data` and goes on according to the `(n, err)` the write returned. -/
inductive SinkProg (σ : Type) where
  | ret (w : σ)
  | fatal (msg : GoString) (w : σ)
  | write (data : List UInt8) (k : Nat × Option GoString → SinkProg σ)

/-- The behaviour of `command.Query`: as `SinkProg`, and it may call the tail
function it was given, in world state `w`, going on from the lines and the
world state that call returns. -/
inductive QueryProg (σ : Type) where
  | ret (w : σ)
  | fatal (msg : GoString) (w : σ)
  | write (data : List UInt8) (k : Nat × Option GoString → QueryProg σ)
  | callTail (sourceID : GoString) (start stop : Time) (w : σ)
      (k : List GoString × σ → QueryProg σ)

/-- The value `InsecureSkipVerify` of a `tls.Config`. -/
structure TLSConfig where
  InsecureSkipVerify : Bool
deriving DecidableEq, Repr

/-- The client `http.DefaultClient`, seen through the TLS configuration of
`http.DefaultTransport` that it uses. -/
structure HTTPClient where
  tls : Option TLSConfig
deriving DecidableEq, Repr

/-- Everything `main.go` calls but does not define, over a world state `σ`. -/
structure Deps (σ : Type) where
  IsSSLDisabled : σ → Except GoString Bool × σ
  Tail : HTTPClient → List GoString → σ → SinkProg σ
  Meta : HTTPClient → List GoString → σ → SinkProg σ
  Query : HTTPClient → List GoString → σ → QueryProg σ

/-- The writer a call was handed. -/
inductive Sink where
  | stdout
  | linesWriter
deriving DecidableEq, Repr

/-- One entry of the call log. -/
inductive Call where
  | IsSSLDisabled
  | Tail (args : List GoString) (w : Sink)
  | Meta (args : List GoString) (w : Sink)
  | Query (args : List GoString) (w : Sink)
deriving DecidableEq, Repr

/-- The state outside `main.go`: the world and the call log. -/
structure Ext (σ : Type) where
  world : σ
  calls : List Call

/-- The result of running a `SinkProg` against a writer with state `ω`. -/
structure SinkRun (σ ω : Type) where
  exit : Option GoString
  world : σ
  sink : ω
  writes : List (List UInt8)

/-- Runs a `SinkProg` against the writer `write`; `writes` collects the data of
every `Write` call, oldest first. -/
def SinkProg.run {σ ω : Type} (write : ω → List UInt8 → (Nat × Option GoString) × ω) :
    SinkProg σ → ω → List (List UInt8) → SinkRun σ ω
  | .ret w, s, ds => ⟨none, w, s, ds⟩
  | .fatal msg w, s, ds => ⟨some msg, w, s, ds⟩
  | .write data k, s, ds =>
    SinkProg.run write (k (write s data).1) (write s data).2 (ds ++ [data])

/-! ## `LogCacheCLI.Run` -/

/-- The argument list of lines 43-51: what the tail function of `log-query`
passes to `command.Tail`. -/
def bridgeTailArgs (sourceID : GoString) (start stop : Time) : List GoString :=
  [ sourceID,
    str "--start-time",
    FormatInt start.UnixNano,
    str "--end-time",
    FormatInt stop.UnixNano,
    str "--json",
    str "--lines", str "1000" ]

/-- The function literal of lines 38-58: a fresh `linesWriter`, one call of
`command.Tail` writing into it, and the collected lines as the result. -/
def tailCallback {σ : Type} (d : Deps σ) (c : HTTPClient) (sourceID : GoString)
    (start stop : Time) (e : Ext σ) : Exit (List GoString) × Ext σ :=
  let buf : linesWriter := ⟨[]⟩
  let args := bridgeTailArgs sourceID start stop
  let r := (d.Tail c args e.world).run linesWriter.Write buf []
  let e1 : Ext σ := ⟨r.world, e.calls ++ [Call.Tail args Sink.linesWriter]⟩
  match r.exit with
  | some msg => (.exited msg, e1)
  | none => (.returned r.sink.lines, e1)

/-- The result of running a `QueryProg`. -/
structure QueryRun (σ ω : Type) where
  exit : Option GoString
  ext : Ext σ
  sink : ω

/-- Runs a `QueryProg` with the tail function `cb` and the writer `write`. -/
def QueryProg.run {σ ω : Type}
    (cb : GoString → Time → Time → Ext σ → Exit (List GoString) × Ext σ)
    (write : ω → List UInt8 → (Nat × Option GoString) × ω) :
    QueryProg σ → ω → List Call → QueryRun σ ω
  | .ret w, s, cs => ⟨none, ⟨w, cs⟩, s⟩
  | .fatal msg w, s, cs => ⟨some msg, ⟨w, cs⟩, s⟩
  | .write data k, s, cs => QueryProg.run cb write (k (write s data).1) (write s data).2 cs
  | .callTail sourceID start stop w k, s, cs =>
    match cb sourceID start stop ⟨w, cs⟩ with
    | (.exited msg, e) => ⟨some msg, e, s⟩
    | (.returned lines, e) => QueryProg.run cb write (k (lines, e.world)) s e.calls

/-- A value of type `command.Command` that the table `commands` can hold:
`command.Tail`, `command.Meta`, or the function literal of lines 34-64. -/
inductive Command where
  | Tail
  | Meta
  | logQuery
deriving DecidableEq, Repr

/-- The process state `Run` works on: the package variable `commands`, the
field `TLSClientConfig` of `http.DefaultTransport`, what was written to
`os.Stdout`, and the state outside `main.go`. -/
structure State (σ : Type) where
  commands : GoString → Option Command
  TLSClientConfig : Option TLSConfig
  stdout : List (List UInt8)
  ext : Ext σ

/-- The initial value of the package variable `commands` (lines 19-22). -/
def commands : GoString → Option Command := fun k =>
  if k = str "tail" then some Command.Tail
  else if k = str "log-meta" then some Command.Meta
  else none

/-- The map assignment `m[key] = v`. -/
def mapSet (m : GoString → Option Command) (key : GoString) (v : Command) :
    GoString → Option Command :=
  fun k => if k = key then some v else m k

/-- The state of a freshly started process in world `w`. -/
def State.init {σ : Type} (w : σ) : State σ :=
  ⟨LogCacheCLI.commands, none, [], ⟨w, []⟩⟩

/-- The call `op(ctx, conn, args, http.DefaultClient, logger, os.Stdout)` of a
table entry `op`. -/
def invoke {σ : Type} (d : Deps σ) (op : Command) (args : List GoString) (g : State σ) :
    Exit Unit × State σ :=
  let c : HTTPClient := ⟨g.TLSClientConfig⟩
  match op with
  | .Tail =>
    let r := (d.Tail c args g.ext.world).run stdoutWrite g.stdout []
    let g1 : State σ :=
      { g with stdout := r.sink, ext := ⟨r.world, g.ext.calls ++ [Call.Tail args Sink.stdout]⟩ }
    match r.exit with
    | some msg => (.exited msg, g1)
    | none => (.returned (), g1)
  | .Meta =>
    let r := (d.Meta c args g.ext.world).run stdoutWrite g.stdout []
    let g1 : State σ :=
      { g with stdout := r.sink, ext := ⟨r.world, g.ext.calls ++ [Call.Meta args Sink.stdout]⟩ }
    match r.exit with
    | some msg => (.exited msg, g1)
    | none => (.returned (), g1)
  | .logQuery =>
    let r := (d.Query c args g.ext.world).run (tailCallback d c) stdoutWrite g.stdout
      (g.ext.calls ++ [Call.Query args Sink.stdout])
    let g1 : State σ := { g with stdout := r.sink, ext := r.ext }
    match r.exit with
    | some msg => (.exited msg, g1)
    | none => (.returned (), g1)

/-- The method `LogCacheCLI.Run` (lines 24-79). -/
def Run {σ : Type} (d : Deps σ) (args : List GoString) (g : State σ) : Exit Unit × State σ :=
  if args.length = 1 ∧ args.head? = some (str "CLI-MESSAGE-UNINSTALL") then
    (.returned (), g)
  else if args.length < 1 then
    (.exited (str "Expected at least 1 argument, but got " ++ FormatInt args.length ++ str "."), g)
  else
    let g1 : State σ := { g with commands := mapSet g.commands (str "log-query") Command.logQuery }
    let r := d.IsSSLDisabled g1.ext.world
    let g2 : State σ := { g1 with ext := ⟨r.2, g1.ext.calls ++ [Call.IsSSLDisabled]⟩ }
    match r.1 with
    | .error err => (.exited err, g2)
    | .ok skipSSL =>
      let g3 : State σ := { g2 with TLSClientConfig := some ⟨skipSSL⟩ }
      match g3.commands (args.headD (str "")) with
      | none => (.exited (str "Unknown Log Cache command: " ++ args.headD (str "")), g3)
      | some op => invoke d op (args.drop 1) g3

/-- The log entry of the call `invoke` makes for a table entry. -/
def handlerCall (op : Command) (args : List GoString) : Call :=
  match op with
  | .Tail => Call.Tail args Sink.stdout
  | .Meta => Call.Meta args Sink.stdout
  | .logQuery => Call.Query args Sink.stdout

/-! ## `LogCacheCLI.GetMetadata` -/

/-- The type `plugin.Usage`; the map `Options` is the list of its entries, in
the order of the map literal. -/
structure Usage where
  Usage : GoString
  Options : List (GoString × GoString)
deriving DecidableEq, Repr

/-- The type `plugin.Command`. -/
structure PluginCommand where
  Name : GoString
  HelpText : GoString
  UsageDetails : Usage
deriving DecidableEq, Repr

/-- The type `plugin.PluginMetadata`, with the fields `GetMetadata` sets. -/
structure PluginMetadata where
  Name : GoString
  Commands : List PluginCommand
deriving DecidableEq, Repr

/-- The method `LogCacheCLI.GetMetadata` (lines 81-122). -/
def GetMetadata : PluginMetadata :=
  { Name := str "Log Cache CLI Plugin",
    Commands := [
      { Name := str "tail",
        HelpText := str "Output logs for a source-id/app",
        UsageDetails :=
          { Usage := str "tail [options] <source-id/app>",
            Options := [
              (str "end-time", str "End of query range in UNIX nanoseconds."),
              (str "envelope-type", str "Envelope type filter. Available filters: 'log', 'counter', 'gauge', 'timer', and 'event'."),
              (str "follow, -f", str "Output appended to stdout as logs are egressed."),
              (str "json", str "Output envelopes in JSON format."),
              (str "lines, -n", str "Number of envelopes to return. Default is 10."),
              (str "start-time", str "Start of query range in UNIX nanoseconds."),
              (str "counter-name", str "Counter name filter (implies --envelope-type=counter)."),
              (str "gauge-name", str "Gauge name filter (implies --envelope-type=gauge).") ] } },
      { Name := str "log-query",
        HelpText := str "Output results for a PromQL",
        UsageDetails :=
          { Usage := str "log-query [options] <promQL>",
            Options := [
              (str "end-time", str "End of query range in UNIX nanoseconds."),
              (str "start-time", str "Start of query range in UNIX nanoseconds.") ] } },
      { Name := str "log-meta",
        HelpText := str "Show all available meta information",
        UsageDetails := { Usage := str "log-meta", Options := [] } } ] }

/-- The long name of an option key such as `follow, -f`: the key up to its
first comma. -/
def optionLongName (key : GoString) : GoString :=
  ⟨key.bytes.takeWhile (fun b => b != 44)⟩

/-- The short alias of an option key such as `follow, -f`: what follows the
comma and the blanks after it, when the key has a comma. -/
def optionAlias (key : GoString) : Option GoString :=
  match key.bytes.dropWhile (fun b => b != 44) with
  | [] => none
  | _ :: rest => some ⟨rest.dropWhile (fun b => b == 32)⟩

/-- The options of the advertised command `name`, each as its long name and
its short alias. -/
def advertisedOptions (name : GoString) : List (GoString × Option GoString) :=
  match GetMetadata.Commands.find? (fun c => c.Name = name) with
  | none => []
  | some c => c.UsageDetails.Options.map (fun kv => (optionLongName kv.1, optionAlias kv.1))

/-! ## The merge of the Range-Query Bridge -/

/-- Modelled from the spec: the Envelope of section 3 (`command.Query` and its
envelope type are not part of `main.go`): a source, a nanosecond timestamp and
an opaque payload. -/
structure Envelope where
  sourceID : GoString
  timestamp : Int
  payload : GoString
deriving DecidableEq, Repr

/-- Modelled from the spec: the ordering key `(timestamp, arrival-sequence)`
of section 3, compared lexicographically, on envelopes paired with their
arrival sequence number. -/
def keyLE (a b : Nat × Envelope) : Prop :=
  a.2.timestamp < b.2.timestamp ∨ (a.2.timestamp = b.2.timestamp ∧ a.1 ≤ b.1)

instance : DecidableRel keyLE := fun a b => by
  unfold keyLE
  exact inferInstance

/-- Modelled from the spec: the merge of section 4.4, absent from `main.go`
(it is part of `command.Query`): all per-source result sequences, numbered in
arrival order, are merged by ascending `(timestamp, sequence)` into one
sequence. -/
def bridgeMerge (perSource : List (List Envelope)) : List Envelope :=
  (perSource.flatten.enum.insertionSort keyLE).map Prod.snd

/-- Modelled from the spec: `evaluate` of section 4.4, absent from `main.go`:
the Tail Streamer is invoked once per identified source over the caller's
range, and the results are merged. -/
def evaluate (tailStreamer : GoString → Int → Int → List Envelope) (sources : List GoString)
    (start stop : Int) : List Envelope :=
  bridgeMerge (sources.map (fun s => tailStreamer s start stop))

/-! ## Auxiliary definitions for the statements -/

/-- The state in which `Run` reaches the table lookup of line 74 when the SSL
query returned `skipSSL`: `log-query` is registered, the SSL query is logged,
and the TLS configuration is set. -/
def dispatchState {σ : Type} (d : Deps σ) (g : State σ) (skipSSL : Bool) : State σ :=
  { commands := mapSet g.commands (str "log-query") Command.logQuery,
    TLSClientConfig := some ⟨skipSSL⟩,
    stdout := g.stdout,
    ext := ⟨(d.IsSSLDisabled g.ext.world).2, g.ext.calls ++ [Call.IsSSLDisabled]⟩ }

/-- A sample environment over a counter: the SSL query answers `true`;
`command.Tail` writes two chunks, the second one carrying the counter, and
increments the counter; `command.Meta` returns; `command.Query` calls its tail
function for source `A` and writes back the number of lines it got. -/
def sampleDeps : Deps Nat :=
  { IsSSLDisabled := fun w => (.ok true, w),
    Tail := fun _ _ w =>
      .write [108, 111, 103] (fun _ => .write [UInt8.ofNat w] (fun _ => .ret (w + 1))),
    Meta := fun _ _ w => .ret w,
    Query := fun _ _ w =>
      .callTail (str "A") ⟨0, 5⟩ ⟨0, 9⟩ w
        (fun r => .write [UInt8.ofNat r.1.length] (fun _ => .ret r.2)) }

/-- The behaviour that writes the chunks of `ds` one after the other and
returns in world `w`. -/
def writeAll {σ : Type} (w : σ) : List (List UInt8) → SinkProg σ
  | [] => .ret w
  | data :: ds => .write data (fun _ => writeAll w ds)

/-- A sample environment over a counter in which the handlers show what they
were passed: the SSL query answers `false`; `command.Tail` writes each of its
arguments as one chunk and adds 1 to the counter; `command.Meta` does the same
and adds 2; `command.Query` calls its tail function for the source named by
its first argument and writes back the number of lines it got. -/
def echoDeps : Deps Nat :=
  { IsSSLDisabled := fun w => (.ok false, w),
    Tail := fun _ args w => writeAll (w + 1) (args.map (fun a => a.bytes)),
    Meta := fun _ args w => writeAll (w + 2) (args.map (fun a => a.bytes)),
    Query := fun _ args w =>
      .callTail (args.headD (str "")) ⟨0, 5⟩ ⟨0, 9⟩ w
        (fun r => .write [UInt8.ofNat r.1.length] (fun _ => .ret r.2)) }

/-- The sample environment with a failing SSL query. -/
def sampleDepsNoSSL : Deps Nat :=
  { sampleDeps with IsSSLDisabled := fun w => (.error (str "not logged in"), w) }

/-- The scenario of section 8: source `A` has one envelope at `t=5`, source `B`
has one at `t=3`. -/
def scenarioStreamer (s : GoString) (_start _stop : Int) : List Envelope :=
  if s = str "A" then [⟨str "A", 5, str "a"⟩]
  else if s = str "B" then [⟨str "B", 3, str "b"⟩]
  else []

/-! ## Decimal rendering and parsing -/

theorem digitByte_toNat (d : Nat) (h : d < 10) : (UInt8.ofNat (48 + d)).toNat = 48 + d := by
  interval_cases d <;> rfl

theorem formatDigits_bytes (fuel u : Nat) (acc : List UInt8) :
    ∀ b ∈ formatDigits fuel u acc, b ∈ acc ∨ (48 ≤ b.toNat ∧ b.toNat ≤ 57) := by
  induction fuel generalizing u acc with
  | zero => intro b hb; exact Or.inl hb
  | succ f ih =>
    intro b hb
    unfold formatDigits at hb
    split at hb
    · rename_i hu
      rcases List.mem_cons.mp hb with rfl | hb
      · right; rw [digitByte_toNat u hu]; omega
      · exact Or.inl hb
    · rcases ih _ _ b hb with hb | hb
      · rcases List.mem_cons.mp hb with rfl | hb
        · right; rw [digitByte_toNat _ (Nat.mod_lt _ (by norm_num))]; omega
        · exact Or.inl hb
      · exact Or.inr hb

theorem formatDigits_head (fuel u : Nat) (acc : List UInt8) :
    ∃ b bs, formatDigits (fuel + 1) u acc = b :: bs ∧ 48 ≤ b.toNat ∧ b.toNat ≤ 57 := by
  induction fuel generalizing u acc with
  | zero =>
    unfold formatDigits
    split
    · rename_i hu
      exact ⟨_, _, rfl, by rw [digitByte_toNat u hu]; omega⟩
    · exact ⟨_, _, rfl, by rw [digitByte_toNat _ (Nat.mod_lt _ (by norm_num))]; omega⟩
  | succ f ih =>
    unfold formatDigits
    split
    · rename_i hu
      exact ⟨_, _, rfl, by rw [digitByte_toNat u hu]; omega⟩
    · exact ih _ _

theorem parseUintLoop_digit (d n : Nat) (cs : List UInt8) (hd : d < 10)
    (hn : n * 10 + d ≤ 2 ^ 64 - 1) :
    parseUintLoop (UInt8.ofNat (48 + d) :: cs) n = parseUintLoop cs (n * 10 + d) := by
  have h1 : ¬ (n ≥ (2 ^ 64 - 1) / 10 + 1) := by omega
  have h2 : ¬ (n * 10 + d > 2 ^ 64 - 1) := by omega
  simp only [parseUintLoop, digitByte_toNat d hd]
  rw [if_pos (by omega), if_neg h1]
  simp only [Nat.add_sub_cancel_left]
  rw [if_neg h2]

theorem parseUintLoop_formatDigits (fuel u : Nat) (acc : List UInt8)
    (hf : u < 10 ^ fuel) (hu : u ≤ 2 ^ 64 - 1) :
    parseUintLoop (formatDigits fuel u acc) 0 = parseUintLoop acc u := by
  induction fuel generalizing u acc with
  | zero => simp at hf; subst hf; rfl
  | succ f ih =>
    unfold formatDigits
    split
    · rename_i h10
      rw [parseUintLoop_digit u 0 acc h10 (by omega)]
      simp
    · rename_i h10
      have hf2 : u / 10 < 10 ^ f := by
        rw [pow_succ] at hf
        exact Nat.div_lt_of_lt_mul (by omega)
      rw [ih (u / 10) _ hf2 (by omega)]
      rw [parseUintLoop_digit (u % 10) (u / 10) acc (Nat.mod_lt _ (by norm_num)) (by omega)]
      congr 1
      omega

theorem ParseUint_formatDigits (u : Nat) (hu : u ≤ 2 ^ 64 - 1) :
    ParseUint (formatDigits 20 u []) = .ok u := by
  obtain ⟨b, bs, hb, _⟩ := formatDigits_head 19 u []
  have h := parseUintLoop_formatDigits 20 u [] (by omega) hu
  rw [hb] at h ⊢
  simpa [ParseUint, parseUintLoop] using h

theorem ParseInt_FormatInt (n : Int) (hlo : -2 ^ 63 ≤ n) (hhi : n < 2 ^ 63) :
    ParseInt (FormatInt n) = .ok n := by
  by_cases hneg : n < 0
  · have hu : n.natAbs ≤ 2 ^ 64 - 1 := by omega
    have hp := ParseUint_formatDigits n.natAbs hu
    have h63 : ¬ (n.natAbs > 2 ^ 63) := by omega
    simp only [FormatInt, if_pos hneg, ParseInt]
    simp only [or_true, if_true, hp, not_true_eq_false, false_and, if_false, true_and, h63]
    congr 1
    omega
  · have hu : n.toNat ≤ 2 ^ 64 - 1 := by omega
    have hp := ParseUint_formatDigits n.toNat hu
    obtain ⟨b, bs, hb, hb1, hb2⟩ := formatDigits_head 19 n.toNat []
    have hb45 : b ≠ 45 := by intro h; subst h; revert hb1; decide
    have hb43 : b ≠ 43 := by intro h; subst h; revert hb1; decide
    have h63 : ¬ (n.toNat ≥ 2 ^ 63) := by omega
    simp only [FormatInt, if_neg hneg, ParseInt]
    rw [hb] at hp ⊢
    simp only [hb45, hb43, or_self, if_false, hp, not_false_eq_true, true_and, h63, false_and]
    congr 1
    omega

theorem FormatInt_bytes (n : Int) :
    ∀ b ∈ (FormatInt n).bytes, b = 45 ∨ (48 ≤ b.toNat ∧ b.toNat ≤ 57) := by
  intro b hb
  unfold FormatInt at hb
  split at hb
  · rcases List.mem_cons.mp hb with h | h
    · exact Or.inl h
    · rcases formatDigits_bytes _ _ _ b h with h | h
      · simp at h
      · exact Or.inr h
  · rcases formatDigits_bytes _ _ _ b hb with h | h
    · simp at h
    · exact Or.inr h

theorem FormatInt_ne_follow (n : Int) : FormatInt n ≠ str "--follow" ∧ FormatInt n ≠ str "-f" := by
  have key : (102 : UInt8) ∉ (FormatInt n).bytes := by
    intro h
    rcases FormatInt_bytes n _ h with h | h
    · revert h; decide
    · revert h; decide
  constructor
  · intro h; rw [h] at key; revert key; decide
  · intro h; rw [h] at key; revert key; decide

theorem wrapInt64_range (x : Int) : -2 ^ 63 ≤ wrapInt64 x ∧ wrapInt64 x < 2 ^ 63 := by
  unfold wrapInt64
  omega

/-! ## The tail function of `log-query` -/

theorem sinkRun_linesWriter {σ : Type} (p : SinkProg σ) (buf : linesWriter)
    (ds : List (List UInt8)) (h : buf.lines = ds.map stringOfBytes) :
    (p.run linesWriter.Write buf ds).sink.lines =
      (p.run linesWriter.Write buf ds).writes.map stringOfBytes := by
  induction p generalizing buf ds with
  | ret w => simpa [SinkProg.run] using h
  | fatal msg w => simpa [SinkProg.run] using h
  | write data k ih =>
    simp only [SinkProg.run]
    apply ih
    simp [linesWriter.Write, h]

theorem tailCallback_calls {σ : Type} (d : Deps σ) (c : HTTPClient) (s : GoString)
    (start stop : Time) (e : Ext σ) :
    (tailCallback d c s start stop e).2.calls =
      e.calls ++ [Call.Tail (bridgeTailArgs s start stop) Sink.linesWriter] := by
  unfold tailCallback
  simp only
  split <;> rfl

theorem tailCallback_world {σ : Type} (d : Deps σ) (c : HTTPClient) (s : GoString)
    (start stop : Time) (e : Ext σ) :
    (tailCallback d c s start stop e).2.world =
      ((d.Tail c (bridgeTailArgs s start stop) e.world).run linesWriter.Write ⟨[]⟩ []).world := by
  unfold tailCallback
  simp only
  split <;> rfl

theorem invoke_logQuery_ext {σ : Type} (d : Deps σ) (args : List GoString) (g : State σ) :
    (invoke d Command.logQuery args g).2.ext =
      ((d.Query ⟨g.TLSClientConfig⟩ args g.ext.world).run (tailCallback d ⟨g.TLSClientConfig⟩)
        stdoutWrite g.stdout (g.ext.calls ++ [Call.Query args Sink.stdout])).ext := by
  unfold invoke
  simp only
  split <;> rfl

theorem queryRun_callTail_ret {σ ω : Type}
    (cb : GoString → Time → Time → Ext σ → Exit (List GoString) × Ext σ)
    (write : ω → List UInt8 → (Nat × Option GoString) × ω) (s : GoString) (start stop : Time)
    (w : σ) (st : ω) (cs : List Call) :
    (QueryProg.run cb write (.callTail s start stop w (fun r => .ret r.2)) st cs).ext.calls =
      (cb s start stop ⟨w, cs⟩).2.calls := by
  simp only [QueryProg.run]
  generalize cb s start stop ⟨w, cs⟩ = r
  rcases r with ⟨_ | _, e⟩ <;> rfl

/-- C1: for every source identifier and every pair of times, the tail function
of `log-query` calls `command.Tail` exactly once (one new entry in the call
log, a call writing into the `linesWriter`), with the eight arguments
`[s, "--start-time", dec(start), "--end-time", dec(end), "--json", "--lines",
"1000"]` in this order; the world it leaves is the one that single call leaves;
and when `command.Query` calls the function it was handed once, the log of the
`log-query` handler shows that call of `command.Tail` right after the call of
`command.Query`. -/
theorem tailCallback_calls_Tail_once {σ : Type} (d : Deps σ) (c : HTTPClient) (s : GoString)
    (start stop : Time) (e : Ext σ) :
    (tailCallback d c s start stop e).2.calls =
        e.calls ++ [Call.Tail
          [s, str "--start-time", FormatInt start.UnixNano, str "--end-time",
            FormatInt stop.UnixNano, str "--json", str "--lines", str "1000"]
          Sink.linesWriter]
      ∧ (bridgeTailArgs s start stop).length = 8
      ∧ (tailCallback d c s start stop e).2.world =
          ((d.Tail c
              [s, str "--start-time", FormatInt start.UnixNano, str "--end-time",
                FormatInt stop.UnixNano, str "--json", str "--lines", str "1000"]
              e.world).run linesWriter.Write ⟨[]⟩ []).world
      ∧ ∀ (args : List GoString) (g : State σ),
          (invoke { d with Query := fun _ _ w => .callTail s start stop w (fun r => .ret r.2) }
              Command.logQuery args g).2.ext.calls =
            g.ext.calls ++ [Call.Query args Sink.stdout,
              Call.Tail
                [s, str "--start-time", FormatInt start.UnixNano, str "--end-time",
                  FormatInt stop.UnixNano, str "--json", str "--lines", str "1000"]
                Sink.linesWriter] := by
  refine ⟨tailCallback_calls d c s start stop e, rfl, tailCallback_world d c s start stop e, ?_⟩
  intro args g
  rw [invoke_logQuery_ext, queryRun_callTail_ret, tailCallback_calls]
  simp [bridgeTailArgs]

/-- C2, as stated, fails: for the source identifier `-f` the argument list has
a follow flag among its elements. -/
theorem bridgeTailArgs_follow_counterexample :
    ¬ (∀ x ∈ bridgeTailArgs (str "-f") ⟨0, 0⟩ ⟨1, 0⟩, x ≠ str "--follow" ∧ x ≠ str "-f") := by
  decide

/-- C2, amended: the argument list contains `--json`; none of the seven
elements after the source identifier is `--follow` or `-f`; hence the list has
a follow flag among its elements exactly when the source identifier itself is
`--follow` or `-f`. -/
theorem bridgeTailArgs_json_follow (s : GoString) (start stop : Time) :
    str "--json" ∈ bridgeTailArgs s start stop
      ∧ (∀ x ∈ (bridgeTailArgs s start stop).drop 1, x ≠ str "--follow" ∧ x ≠ str "-f")
      ∧ ((∃ x ∈ bridgeTailArgs s start stop, x = str "--follow" ∨ x = str "-f") ↔
          (s = str "--follow" ∨ s = str "-f")) := by
  have h1 := FormatInt_ne_follow start.UnixNano
  have h2 := FormatInt_ne_follow stop.UnixNano
  have hfix : ∀ x ∈ (bridgeTailArgs s start stop).drop 1, x ≠ str "--follow" ∧ x ≠ str "-f" := by
    intro x hx
    simp only [bridgeTailArgs, List.drop_succ_cons, List.drop_zero, List.mem_cons,
      List.mem_singleton, List.not_mem_nil, or_false] at hx
    rcases hx with rfl | rfl | rfl | rfl | rfl | rfl | rfl
    · decide
    · exact h1
    · decide
    · exact h2
    · decide
    · decide
    · decide
  refine ⟨by simp [bridgeTailArgs], hfix, ?_⟩
  constructor
  · rintro ⟨x, hx, hf⟩
    have hx2 : x = s ∨ x ∈ (bridgeTailArgs s start stop).drop 1 := by
      simpa [bridgeTailArgs] using hx
    rcases hx2 with rfl | hx2
    · exact hf
    · have := hfix x hx2
      rcases hf with hf | hf
      · exact absurd hf this.1
      · exact absurd hf this.2
  · intro hs
    exact ⟨s, by simp [bridgeTailArgs], hs⟩

/-- C3: the tail function returns exactly the data of the writes that
`command.Tail` performed on its sink, converted to strings, one entry per
`Write` call and in the order of the calls, whatever happened before (`e` is
arbitrary and the buffer starts empty); when `command.Tail` wrote nothing the
result is the empty list; when `command.Tail` ends the process there is no
result.  Each `Write(data)` appends `string(data)` and returns
`(len(data), nil)`. -/
theorem tailCallback_returns_writes {σ : Type} (d : Deps σ) (c : HTTPClient) (s : GoString)
    (start stop : Time) (e : Ext σ) :
    (tailCallback d c s start stop e).1 =
        (match ((d.Tail c (bridgeTailArgs s start stop) e.world).run
            linesWriter.Write ⟨[]⟩ []).exit with
          | some msg => Exit.exited msg
          | none => Exit.returned
              (((d.Tail c (bridgeTailArgs s start stop) e.world).run
                linesWriter.Write ⟨[]⟩ []).writes.map stringOfBytes))
      ∧ (∀ w : σ, d.Tail c (bridgeTailArgs s start stop) e.world = SinkProg.ret w →
          (tailCallback d c s start stop e).1 = Exit.returned [])
      ∧ (∀ (w : linesWriter) (data : List UInt8),
          (w.Write data).1 = (data.length, none)
            ∧ (w.Write data).2.lines = w.lines ++ [stringOfBytes data]) := by
  have hl := sinkRun_linesWriter (d.Tail c (bridgeTailArgs s start stop) e.world) ⟨[]⟩ [] rfl
  refine ⟨?_, ?_, fun w data => ⟨rfl, rfl⟩⟩
  · unfold tailCallback
    simp only
    split
    · rename_i msg h
      simp [h]
    · rename_i h
      simp [h, hl]
  · intro w hw
    unfold tailCallback
    simp only [hw, SinkProg.run]

/-- C3 on the sample environment: two calls of the tail function one after
the other; the second returns the two chunks of its own call of `command.Tail`
and nothing of the first call. -/
theorem tailCallback_returns_writes_witness :
    (tailCallback sampleDeps ⟨none⟩ (str "A") ⟨0, 5⟩ ⟨0, 9⟩ ⟨0, []⟩).1
        = Exit.returned [stringOfBytes [108, 111, 103], stringOfBytes [0]]
      ∧ (tailCallback sampleDeps ⟨none⟩ (str "A") ⟨0, 5⟩ ⟨0, 9⟩
          (tailCallback sampleDeps ⟨none⟩ (str "A") ⟨0, 5⟩ ⟨0, 9⟩ ⟨0, []⟩).2).1
        = Exit.returned [stringOfBytes [108, 111, 103], stringOfBytes [1]] :=
  ⟨by decide,
    (tailCallback_returns_writes sampleDeps ⟨none⟩ (str "A") ⟨0, 5⟩ ⟨0, 9⟩
      (tailCallback sampleDeps ⟨none⟩ (str "A") ⟨0, 5⟩ ⟨0, 9⟩ ⟨0, []⟩).2).1.trans (by decide)⟩

/-- C4: for every `int64` value `n`, parsing the decimal rendering of `n` as a
signed 64-bit integer gives `n` back, and for a time whose `UnixNano` is `n`
the element after `--start-time` (respectively `--end-time`) of the argument
list is that rendering; the `UnixNano` of every time is such a value, so the
round trip holds for every time. -/
theorem bridgeTailArgs_time_roundtrip (n : Int) (hlo : -2 ^ 63 ≤ n) (hhi : n < 2 ^ 63)
    (s : GoString) (t u : Time) (ht : t.UnixNano = n) :
    ParseInt (FormatInt n) = .ok n
      ∧ (bridgeTailArgs s t u).get? 1 = some (str "--start-time")
      ∧ (bridgeTailArgs s t u).get? 2 = some (FormatInt n)
      ∧ (bridgeTailArgs s u t).get? 3 = some (str "--end-time")
      ∧ (bridgeTailArgs s u t).get? 4 = some (FormatInt n)
      ∧ ParseInt (FormatInt u.UnixNano) = .ok u.UnixNano := by
  refine ⟨ParseInt_FormatInt n hlo hhi, rfl, ?_, rfl, ?_, ?_⟩
  · simp [bridgeTailArgs, ht]
  · simp [bridgeTailArgs, ht]
  · exact ParseInt_FormatInt _ (wrapInt64_range _).1 (wrapInt64_range _).2

/-- C4 at the smallest `int64` value. -/
theorem bridgeTailArgs_time_roundtrip_witness :
    (-2 ^ 63 ≤ (-9223372036854775808 : Int)) ∧ ((-9223372036854775808 : Int) < 2 ^ 63)
      ∧ (⟨-9223372037, 145224192⟩ : Time).UnixNano = -9223372036854775808
      ∧ (ParseInt (FormatInt (-9223372036854775808)) = .ok (-9223372036854775808)
        ∧ (bridgeTailArgs (str "app") ⟨-9223372037, 145224192⟩ ⟨0, 0⟩).get? 1
            = some (str "--start-time")
        ∧ (bridgeTailArgs (str "app") ⟨-9223372037, 145224192⟩ ⟨0, 0⟩).get? 2
            = some (FormatInt (-9223372036854775808))
        ∧ (bridgeTailArgs (str "app") ⟨0, 0⟩ ⟨-9223372037, 145224192⟩).get? 3
            = some (str "--end-time")
        ∧ (bridgeTailArgs (str "app") ⟨0, 0⟩ ⟨-9223372037, 145224192⟩).get? 4
            = some (FormatInt (-9223372036854775808))
        ∧ ParseInt (FormatInt (⟨0, 0⟩ : Time).UnixNano) = .ok (⟨0, 0⟩ : Time).UnixNano) :=
  ⟨by decide, by decide, by decide,
    bridgeTailArgs_time_roundtrip (-9223372036854775808) (by decide) (by decide)
      (str "app") ⟨-9223372037, 145224192⟩ ⟨0, 0⟩ (by decide)⟩

/-! ## `GetMetadata` -/

/-- C5: `GetMetadata` advertises exactly the commands `tail`, `log-query`,
`log-meta`, in this order; the options of `tail`, by long name, are the eight
options `start-time`, `end-time`, `envelope-type`, `follow` (alias `-f`),
`json`, `lines` (alias `-n`), `counter-name`, `gauge-name`; those of
`log-query` are `start-time` and `end-time`; `log-meta` has none; no option key
occurs twice in a command. -/
theorem GetMetadata_commands_options :
    GetMetadata.Commands.map (fun c => c.Name) = [str "tail", str "log-query", str "log-meta"]
      ∧ (advertisedOptions (str "tail")).Perm
          [ (str "start-time", none), (str "end-time", none), (str "envelope-type", none),
            (str "follow", some (str "-f")), (str "json", none), (str "lines", some (str "-n")),
            (str "counter-name", none), (str "gauge-name", none) ]
      ∧ (advertisedOptions (str "tail")).length = 8
      ∧ (advertisedOptions (str "log-query")).Perm
          [ (str "start-time", none), (str "end-time", none) ]
      ∧ advertisedOptions (str "log-meta") = []
      ∧ GetMetadata.Commands.map (fun c => decide (c.UsageDetails.Options.map Prod.fst).Nodup)
          = [true, true, true] := by
  refine ⟨by decide, by decide, by decide, by decide, by decide, by decide⟩

/-! ## `Run` -/

theorem uninstall_iff (args : List GoString) :
    (args.length = 1 ∧ args.head? = some (str "CLI-MESSAGE-UNINSTALL")) ↔
      args = [str "CLI-MESSAGE-UNINSTALL"] := by
  rcases args with _ | ⟨a, _ | ⟨b, rest⟩⟩ <;> simp

theorem Run_uninstall_eq {σ : Type} (d : Deps σ) (g : State σ) :
    Run d [str "CLI-MESSAGE-UNINSTALL"] g = (.returned (), g) := by
  unfold Run
  rw [if_pos ((uninstall_iff _).mpr rfl)]

theorem Run_nil_eq {σ : Type} (d : Deps σ) (g : State σ) :
    Run d [] g = (.exited (str "Expected at least 1 argument, but got 0."), g) := by
  unfold Run
  rw [if_neg (by simp), if_pos (by simp)]
  congr 2

theorem Run_cons_eq {σ : Type} (d : Deps σ) (a : GoString) (rest : List GoString) (g : State σ)
    (h : a :: rest ≠ [str "CLI-MESSAGE-UNINSTALL"]) :
    Run d (a :: rest) g =
      match (d.IsSSLDisabled g.ext.world).1 with
      | .error err =>
        (.exited err,
          { g with
            commands := mapSet g.commands (str "log-query") Command.logQuery,
            ext := ⟨(d.IsSSLDisabled g.ext.world).2, g.ext.calls ++ [Call.IsSSLDisabled]⟩ })
      | .ok skipSSL =>
        match mapSet g.commands (str "log-query") Command.logQuery a with
        | none => (.exited (str "Unknown Log Cache command: " ++ a), dispatchState d g skipSSL)
        | some op => invoke d op rest (dispatchState d g skipSSL) := by
  unfold Run
  rw [if_neg (fun hc => h ((uninstall_iff _).mp hc)), if_neg (by simp)]
  simp only [List.headD_cons, List.drop_succ_cons, List.drop_zero]
  rfl

theorem invoke_globals {σ : Type} (d : Deps σ) (op : Command) (args : List GoString)
    (g : State σ) :
    (invoke d op args g).2.commands = g.commands
      ∧ (invoke d op args g).2.TLSClientConfig = g.TLSClientConfig := by
  cases op <;> unfold invoke <;> simp only <;> split <;> exact ⟨rfl, rfl⟩

theorem queryRun_calls {σ ω : Type} (d : Deps σ) (c : HTTPClient)
    (write : ω → List UInt8 → (Nat × Option GoString) × ω) (p : QueryProg σ) (st : ω)
    (cs : List Call) :
    ∃ inner, (p.run (tailCallback d c) write st cs).ext.calls = cs ++ inner
      ∧ ∀ x ∈ inner, ∃ s a b, x = Call.Tail (bridgeTailArgs s a b) Sink.linesWriter := by
  induction p generalizing st cs with
  | ret w => exact ⟨[], by simp [QueryProg.run], by simp⟩
  | fatal msg w => exact ⟨[], by simp [QueryProg.run], by simp⟩
  | write data k ih =>
    simp only [QueryProg.run]
    exact ih _ _ _
  | callTail s a b w k ih =>
    have hc := tailCallback_calls d c s a b ⟨w, cs⟩
    simp only [QueryProg.run]
    generalize tailCallback d c s a b ⟨w, cs⟩ = r at hc
    rcases r with ⟨lines | msg, e⟩
    · simp only at hc ⊢
      obtain ⟨inner, h1, h2⟩ := ih (lines, e.world) st e.calls
      refine ⟨Call.Tail (bridgeTailArgs s a b) Sink.linesWriter :: inner, ?_, ?_⟩
      · rw [h1, hc]; simp
      · intro x hx
        rcases List.mem_cons.mp hx with rfl | hx
        · exact ⟨s, a, b, rfl⟩
        · exact h2 x hx
    · simp only at hc ⊢
      refine ⟨[Call.Tail (bridgeTailArgs s a b) Sink.linesWriter], hc, ?_⟩
      intro x hx
      rw [List.mem_singleton] at hx
      exact ⟨s, a, b, hx⟩

theorem invoke_calls {σ : Type} (d : Deps σ) (op : Command) (args : List GoString)
    (g : State σ) :
    ∃ inner, (invoke d op args g).2.ext.calls = g.ext.calls ++ handlerCall op args :: inner
      ∧ (∀ x ∈ inner, ∃ s a b, x = Call.Tail (bridgeTailArgs s a b) Sink.linesWriter)
      ∧ (op ≠ Command.logQuery → inner = []) := by
  cases op
  · refine ⟨[], ?_, by simp, fun _ => rfl⟩
    unfold invoke; simp only; split <;> rfl
  · refine ⟨[], ?_, by simp, fun _ => rfl⟩
    unfold invoke; simp only; split <;> rfl
  · obtain ⟨inner, h1, h2⟩ := queryRun_calls d ⟨g.TLSClientConfig⟩ stdoutWrite
      (d.Query ⟨g.TLSClientConfig⟩ args g.ext.world) g.stdout
      (g.ext.calls ++ [Call.Query args Sink.stdout])
    refine ⟨inner, ?_, h2, fun h => absurd rfl h⟩
    rw [invoke_logQuery_ext, h1]
    simp [handlerCall]

/-- C6, as stated, fails: after `Run` with the argument list `["tail"]` the
package-level table has an entry for `log-query` that it did not have before,
and the TLS configuration of the default transport, unset before, is set. -/
theorem Run_globals_counterexample :
    (Run sampleDeps [str "tail"] (State.init 0)).2.commands (str "log-query")
        ≠ (State.init (0 : Nat)).commands (str "log-query")
      ∧ (Run sampleDeps [str "tail"] (State.init 0)).2.TLSClientConfig
        ≠ (State.init (0 : Nat)).TLSClientConfig := by
  decide

/-- C6, amended: `Run` leaves the package-level table and the TLS
configuration of the default transport as they were only for the empty
argument list and for the uninstall message; for every other argument list the
table after `Run` is the table before with `log-query` bound to the bridge, and
the TLS configuration is `InsecureSkipVerify: skipSSL` when the SSL query
returned `skipSSL` (and as before when the query failed). -/
theorem Run_globals {σ : Type} (d : Deps σ) (args : List GoString) (g : State σ) :
    (Run d args g).2.commands =
        (if args = [] ∨ args = [str "CLI-MESSAGE-UNINSTALL"] then g.commands
          else mapSet g.commands (str "log-query") Command.logQuery)
      ∧ (Run d args g).2.TLSClientConfig =
        (if args = [] ∨ args = [str "CLI-MESSAGE-UNINSTALL"] then g.TLSClientConfig
          else match (d.IsSSLDisabled g.ext.world).1 with
            | .ok skipSSL => some ⟨skipSSL⟩
            | .error _ => g.TLSClientConfig) := by
  rcases args with _ | ⟨a, rest⟩
  · rw [Run_nil_eq]; simp
  · by_cases h : a :: rest = [str "CLI-MESSAGE-UNINSTALL"]
    · rw [h, Run_uninstall_eq]; simp
    · rw [Run_cons_eq d a rest g h, if_neg (by simp [h]), if_neg (by simp [h])]
      cases hr : (d.IsSSLDisabled g.ext.world).1 with
      | error err => exact ⟨rfl, rfl⟩
      | ok skipSSL =>
        cases hop : mapSet g.commands (str "log-query") Command.logQuery a with
        | none => exact ⟨rfl, rfl⟩
        | some op =>
          have := invoke_globals d op rest (dispatchState d g skipSSL)
          exact ⟨this.1, this.2⟩

/-- C8: for the argument list `["CLI-MESSAGE-UNINSTALL"]`, `Run` returns
normally and the whole state is as before: no entry is added to the call log
(no handler call, no SSL query), the table and the TLS configuration are
untouched.  A longer list that starts with `CLI-MESSAGE-UNINSTALL` is not the
uninstall message: `log-query` is registered and the SSL query is made, and in
a fresh process the outcome is the SSL error or, when the query succeeds, the
failure `Unknown Log Cache command: CLI-MESSAGE-UNINSTALL`. -/
theorem Run_uninstall {σ : Type} (d : Deps σ) (g : State σ) (w : σ) (a : GoString)
    (rest : List GoString) :
    Run d [str "CLI-MESSAGE-UNINSTALL"] g = (.returned (), g)
      ∧ (Run d (str "CLI-MESSAGE-UNINSTALL" :: a :: rest) g).2.commands =
          mapSet g.commands (str "log-query") Command.logQuery
      ∧ (∃ more, (Run d (str "CLI-MESSAGE-UNINSTALL" :: a :: rest) g).2.ext.calls =
          g.ext.calls ++ Call.IsSSLDisabled :: more)
      ∧ (Run d (str "CLI-MESSAGE-UNINSTALL" :: a :: rest) (State.init w)).1 =
          (match (d.IsSSLDisabled w).1 with
            | .ok _ => .exited (str "Unknown Log Cache command: CLI-MESSAGE-UNINSTALL")
            | .error err => .exited err)
      ∧ (Run d (str "CLI-MESSAGE-UNINSTALL" :: a :: rest) (State.init w)).2.ext.calls =
          [Call.IsSSLDisabled] := by
  have hne : ∀ r : List GoString,
      str "CLI-MESSAGE-UNINSTALL" :: a :: r ≠ [str "CLI-MESSAGE-UNINSTALL"] := by
    intro r; simp
  refine ⟨Run_uninstall_eq d g, ?_, ?_, ?_, ?_⟩
  · have := (Run_globals d (str "CLI-MESSAGE-UNINSTALL" :: a :: rest) g).1
    rw [this, if_neg (by simp)]
  · rw [Run_cons_eq d _ _ g (hne rest)]
    cases hr : (d.IsSSLDisabled g.ext.world).1 with
    | error err => exact ⟨[], rfl⟩
    | ok skipSSL =>
      cases hop : mapSet g.commands (str "log-query") Command.logQuery
          (str "CLI-MESSAGE-UNINSTALL") with
      | none => exact ⟨[], rfl⟩
      | some op =>
        obtain ⟨inner, h1, _⟩ := invoke_calls d op (a :: rest) (dispatchState d g skipSSL)
        exact ⟨handlerCall op (a :: rest) :: inner, by rw [h1]; simp [dispatchState]⟩
  · rw [Run_cons_eq d _ _ _ (hne rest)]
    have ht : mapSet commands (str "log-query") Command.logQuery
        (str "CLI-MESSAGE-UNINSTALL") = none := by decide
    simp only [State.init, ht]
    cases (d.IsSSLDisabled w).1 <;> rfl
  · rw [Run_cons_eq d _ _ _ (hne rest)]
    have ht : mapSet commands (str "log-query") Command.logQuery
        (str "CLI-MESSAGE-UNINSTALL") = none := by decide
    simp only [State.init, ht]
    cases (d.IsSSLDisabled w).1 <;> rfl

theorem invoke_Tail_run {σ : Type} (d : Deps σ) (args : List GoString) (g : State σ) :
    (invoke d Command.Tail args g).1 =
        (match ((d.Tail ⟨g.TLSClientConfig⟩ args g.ext.world).run stdoutWrite g.stdout []).exit with
          | some msg => Exit.exited msg
          | none => Exit.returned ())
      ∧ (invoke d Command.Tail args g).2.ext.world =
          ((d.Tail ⟨g.TLSClientConfig⟩ args g.ext.world).run stdoutWrite g.stdout []).world
      ∧ (invoke d Command.Tail args g).2.stdout =
          ((d.Tail ⟨g.TLSClientConfig⟩ args g.ext.world).run stdoutWrite g.stdout []).sink := by
  unfold invoke
  simp only
  split
  · rename_i msg h
    simp [h]
  · rename_i h
    simp [h]

theorem invoke_Meta_run {σ : Type} (d : Deps σ) (args : List GoString) (g : State σ) :
    (invoke d Command.Meta args g).1 =
        (match ((d.Meta ⟨g.TLSClientConfig⟩ args g.ext.world).run stdoutWrite g.stdout []).exit with
          | some msg => Exit.exited msg
          | none => Exit.returned ())
      ∧ (invoke d Command.Meta args g).2.ext.world =
          ((d.Meta ⟨g.TLSClientConfig⟩ args g.ext.world).run stdoutWrite g.stdout []).world
      ∧ (invoke d Command.Meta args g).2.stdout =
          ((d.Meta ⟨g.TLSClientConfig⟩ args g.ext.world).run stdoutWrite g.stdout []).sink := by
  unfold invoke
  simp only
  split
  · rename_i msg h
    simp [h]
  · rename_i h
    simp [h]

theorem invoke_logQuery_run {σ : Type} (d : Deps σ) (args : List GoString) (g : State σ) :
    (invoke d Command.logQuery args g).1 =
        (match ((d.Query ⟨g.TLSClientConfig⟩ args g.ext.world).run
            (tailCallback d ⟨g.TLSClientConfig⟩) stdoutWrite g.stdout
            (g.ext.calls ++ [Call.Query args Sink.stdout])).exit with
          | some msg => Exit.exited msg
          | none => Exit.returned ())
      ∧ (invoke d Command.logQuery args g).2.ext.world =
          ((d.Query ⟨g.TLSClientConfig⟩ args g.ext.world).run
            (tailCallback d ⟨g.TLSClientConfig⟩) stdoutWrite g.stdout
            (g.ext.calls ++ [Call.Query args Sink.stdout])).ext.world
      ∧ (invoke d Command.logQuery args g).2.ext.calls =
          ((d.Query ⟨g.TLSClientConfig⟩ args g.ext.world).run
            (tailCallback d ⟨g.TLSClientConfig⟩) stdoutWrite g.stdout
            (g.ext.calls ++ [Call.Query args Sink.stdout])).ext.calls
      ∧ (invoke d Command.logQuery args g).2.stdout =
          ((d.Query ⟨g.TLSClientConfig⟩ args g.ext.world).run
            (tailCallback d ⟨g.TLSClientConfig⟩) stdoutWrite g.stdout
            (g.ext.calls ++ [Call.Query args Sink.stdout])).sink := by
  unfold invoke
  simp only
  split
  · rename_i msg h
    simp [h]
  · rename_i h
    simp [h]

/-- C9: every command name that `GetMetadata` advertises is dispatched.  In a
fresh process, when the SSL query succeeds, `Run (name :: rest)` finds an entry
`op` for `name` in the table (`tail` is `command.Tail`, `log-meta` is
`command.Meta`, `log-query` is the bridge) and is exactly one call of `op` on
`rest`; the call log is the SSL query, then the one call of the handler with
the arguments `rest`, then nothing else except the calls of `command.Tail`
that the tail function of the bridge makes while `command.Query` runs.  What
`Run` leaves behind is what that one call does: for `tail` (for `log-meta`) the
outcome, the world and the standard output are those of one run of
`command.Tail` (of `command.Meta`) on exactly `rest`, with the client
configured by the SSL answer, in the world the SSL query left, writing to the
empty standard output; for `log-query` they are, with the call log, those of
one run of `command.Query` on exactly `rest` with the tail function of the
bridge. -/
theorem Run_dispatches_advertised {σ : Type} (d : Deps σ) (w : σ) (name : GoString)
    (rest : List GoString) (skipSSL : Bool)
    (hname : name ∈ GetMetadata.Commands.map (fun c => c.Name))
    (hssl : (d.IsSSLDisabled w).1 = .ok skipSSL) :
    ∃ op inner,
      mapSet commands (str "log-query") Command.logQuery name = some op
        ∧ (name = str "tail" → op = Command.Tail)
        ∧ (name = str "log-meta" → op = Command.Meta)
        ∧ (name = str "log-query" → op = Command.logQuery)
        ∧ Run d (name :: rest) (State.init w) =
            invoke d op rest (dispatchState d (State.init w) skipSSL)
        ∧ (Run d (name :: rest) (State.init w)).2.ext.calls =
            [Call.IsSSLDisabled, handlerCall op rest] ++ inner
        ∧ (∀ x ∈ inner, ∃ s a b, x = Call.Tail (bridgeTailArgs s a b) Sink.linesWriter)
        ∧ (op ≠ Command.logQuery → inner = [])
        ∧ (name = str "tail" →
            (Run d (name :: rest) (State.init w)).1 =
                (match ((d.Tail ⟨some ⟨skipSSL⟩⟩ rest (d.IsSSLDisabled w).2).run
                    stdoutWrite [] []).exit with
                  | some msg => Exit.exited msg
                  | none => Exit.returned ())
              ∧ (Run d (name :: rest) (State.init w)).2.ext.world =
                ((d.Tail ⟨some ⟨skipSSL⟩⟩ rest (d.IsSSLDisabled w).2).run
                  stdoutWrite [] []).world
              ∧ (Run d (name :: rest) (State.init w)).2.stdout =
                ((d.Tail ⟨some ⟨skipSSL⟩⟩ rest (d.IsSSLDisabled w).2).run
                  stdoutWrite [] []).sink)
        ∧ (name = str "log-meta" →
            (Run d (name :: rest) (State.init w)).1 =
                (match ((d.Meta ⟨some ⟨skipSSL⟩⟩ rest (d.IsSSLDisabled w).2).run
                    stdoutWrite [] []).exit with
                  | some msg => Exit.exited msg
                  | none => Exit.returned ())
              ∧ (Run d (name :: rest) (State.init w)).2.ext.world =
                ((d.Meta ⟨some ⟨skipSSL⟩⟩ rest (d.IsSSLDisabled w).2).run
                  stdoutWrite [] []).world
              ∧ (Run d (name :: rest) (State.init w)).2.stdout =
                ((d.Meta ⟨some ⟨skipSSL⟩⟩ rest (d.IsSSLDisabled w).2).run
                  stdoutWrite [] []).sink)
        ∧ (name = str "log-query" →
            (Run d (name :: rest) (State.init w)).1 =
                (match ((d.Query ⟨some ⟨skipSSL⟩⟩ rest (d.IsSSLDisabled w).2).run
                    (tailCallback d ⟨some ⟨skipSSL⟩⟩) stdoutWrite []
                    [Call.IsSSLDisabled, Call.Query rest Sink.stdout]).exit with
                  | some msg => Exit.exited msg
                  | none => Exit.returned ())
              ∧ (Run d (name :: rest) (State.init w)).2.ext.world =
                ((d.Query ⟨some ⟨skipSSL⟩⟩ rest (d.IsSSLDisabled w).2).run
                  (tailCallback d ⟨some ⟨skipSSL⟩⟩) stdoutWrite []
                  [Call.IsSSLDisabled, Call.Query rest Sink.stdout]).ext.world
              ∧ (Run d (name :: rest) (State.init w)).2.ext.calls =
                ((d.Query ⟨some ⟨skipSSL⟩⟩ rest (d.IsSSLDisabled w).2).run
                  (tailCallback d ⟨some ⟨skipSSL⟩⟩) stdoutWrite []
                  [Call.IsSSLDisabled, Call.Query rest Sink.stdout]).ext.calls
              ∧ (Run d (name :: rest) (State.init w)).2.stdout =
                ((d.Query ⟨some ⟨skipSSL⟩⟩ rest (d.IsSSLDisabled w).2).run
                  (tailCallback d ⟨some ⟨skipSSL⟩⟩) stdoutWrite []
                  [Call.IsSSLDisabled, Call.Query rest Sink.stdout]).sink) := by
  have hcases : name = str "tail" ∨ name = str "log-query" ∨ name = str "log-meta" := by
    have h0 : GetMetadata.Commands.map (fun c => c.Name)
        = [str "tail", str "log-query", str "log-meta"] := by decide
    rw [h0] at hname
    simpa using hname
  have hU : ∀ n : GoString, (n = str "tail" ∨ n = str "log-query" ∨ n = str "log-meta") →
      n :: rest ≠ [str "CLI-MESSAGE-UNINSTALL"] := by
    intro n hn hc
    have : n = str "CLI-MESSAGE-UNINSTALL" := (List.cons.inj hc).1
    subst this
    revert hn
    decide
  have main : ∀ op : Command,
      mapSet commands (str "log-query") Command.logQuery name = some op →
      Run d (name :: rest) (State.init w) =
        invoke d op rest (dispatchState d (State.init w) skipSSL) := by
    intro op hop
    rw [Run_cons_eq d name rest _ (hU name hcases)]
    have hssl2 : (d.IsSSLDisabled (State.init w).ext.world).1 = .ok skipSSL := hssl
    have hop2 : mapSet (State.init w).commands (str "log-query") Command.logQuery name
        = some op := hop
    simp only [hssl2, hop2]
  have fin : ∀ op : Command,
      mapSet commands (str "log-query") Command.logQuery name = some op →
      ∃ inner, Run d (name :: rest) (State.init w) =
            invoke d op rest (dispatchState d (State.init w) skipSSL)
        ∧ (Run d (name :: rest) (State.init w)).2.ext.calls =
            [Call.IsSSLDisabled, handlerCall op rest] ++ inner
        ∧ (∀ x ∈ inner, ∃ s a b, x = Call.Tail (bridgeTailArgs s a b) Sink.linesWriter)
        ∧ (op ≠ Command.logQuery → inner = []) := by
    intro op hop
    obtain ⟨inner, h1, h2, h3⟩ := invoke_calls d op rest (dispatchState d (State.init w) skipSSL)
    refine ⟨inner, main op hop, ?_, h2, h3⟩
    rw [main op hop, h1]
    simp [dispatchState, State.init]
  rcases hcases with h | h | h
  · subst h
    obtain ⟨inner, h1, h2, h3, h4⟩ := fin Command.Tail (by decide)
    refine ⟨Command.Tail, inner, by decide, fun _ => rfl, by decide, by decide, h1, h2, h3, h4,
      fun _ => ?_, fun hc => absurd hc (by decide), fun hc => absurd hc (by decide)⟩
    rw [h1]
    exact invoke_Tail_run d rest (dispatchState d (State.init w) skipSSL)
  · subst h
    obtain ⟨inner, h1, h2, h3, h4⟩ := fin Command.logQuery (by decide)
    refine ⟨Command.logQuery, inner, by decide, by decide, by decide, fun _ => rfl,
      h1, h2, h3, h4, fun hc => absurd hc (by decide), fun hc => absurd hc (by decide),
      fun _ => ?_⟩
    rw [h1]
    exact invoke_logQuery_run d rest (dispatchState d (State.init w) skipSSL)
  · subst h
    obtain ⟨inner, h1, h2, h3, h4⟩ := fin Command.Meta (by decide)
    refine ⟨Command.Meta, inner, by decide, by decide, fun _ => rfl, by decide, h1, h2, h3, h4,
      fun hc => absurd hc (by decide), fun _ => ?_, fun hc => absurd hc (by decide)⟩
    rw [h1]
    exact invoke_Meta_run d rest (dispatchState d (State.init w) skipSSL)

/-- C9 on the sample environments.  With the echoing handlers, `tail x y`
writes exactly the chunks `x` and `y` to the standard output and adds 1 to the
counter, `log-meta x` writes `x` and adds 2, and `log-query A` makes the
bridge call `command.Tail` for source `A`; the general statement is applied to
`tail x y`. -/
theorem Run_dispatches_advertised_witness :
    (Run echoDeps [str "tail", str "x", str "y"] (State.init 0)).1 = Exit.returned ()
      ∧ (Run echoDeps [str "tail", str "x", str "y"] (State.init 0)).2.stdout
          = [(str "x").bytes, (str "y").bytes]
      ∧ (Run echoDeps [str "tail", str "x", str "y"] (State.init 0)).2.ext.world = 1
      ∧ (Run echoDeps [str "tail", str "x", str "y"] (State.init 0)).2.ext.calls
          = [Call.IsSSLDisabled, Call.Tail [str "x", str "y"] Sink.stdout]
      ∧ (Run echoDeps [str "log-meta", str "x"] (State.init 0)).2.stdout = [(str "x").bytes]
      ∧ (Run echoDeps [str "log-meta", str "x"] (State.init 0)).2.ext.world = 2
      ∧ (Run echoDeps [str "log-meta", str "x"] (State.init 0)).2.ext.calls
          = [Call.IsSSLDisabled, Call.Meta [str "x"] Sink.stdout]
      ∧ (Run echoDeps [str "log-query", str "A"] (State.init 0)).2.stdout = [[8]]
      ∧ (Run echoDeps [str "log-query", str "A"] (State.init 0)).2.ext.world = 1
      ∧ (Run echoDeps [str "log-query", str "A"] (State.init 0)).2.ext.calls =
          [Call.IsSSLDisabled, Call.Query [str "A"] Sink.stdout,
            Call.Tail [str "A", str "--start-time", str "5", str "--end-time", str "9",
              str "--json", str "--lines", str "1000"] Sink.linesWriter]
      ∧ str "tail" ∈ GetMetadata.Commands.map (fun c => c.Name)
      ∧ (echoDeps.IsSSLDisabled 0).1 = .ok false
      ∧ ∃ op inner,
          mapSet commands (str "log-query") Command.logQuery (str "tail") = some op
            ∧ (str "tail" = str "tail" → op = Command.Tail)
            ∧ (str "tail" = str "log-meta" → op = Command.Meta)
            ∧ (str "tail" = str "log-query" → op = Command.logQuery)
            ∧ Run echoDeps [str "tail", str "x", str "y"] (State.init 0) =
                invoke echoDeps op [str "x", str "y"]
                  (dispatchState echoDeps (State.init 0) false)
            ∧ (Run echoDeps [str "tail", str "x", str "y"] (State.init 0)).2.ext.calls =
                [Call.IsSSLDisabled, handlerCall op [str "x", str "y"]] ++ inner
            ∧ (∀ x ∈ inner, ∃ s a b, x = Call.Tail (bridgeTailArgs s a b) Sink.linesWriter)
            ∧ (op ≠ Command.logQuery → inner = [])
            ∧ (str "tail" = str "tail" →
                (Run echoDeps [str "tail", str "x", str "y"] (State.init 0)).1 =
                    (match ((echoDeps.Tail ⟨some ⟨false⟩⟩ [str "x", str "y"]
                        (echoDeps.IsSSLDisabled 0).2).run stdoutWrite [] []).exit with
                      | some msg => Exit.exited msg
                      | none => Exit.returned ())
                  ∧ (Run echoDeps [str "tail", str "x", str "y"] (State.init 0)).2.ext.world =
                    ((echoDeps.Tail ⟨some ⟨false⟩⟩ [str "x", str "y"]
                      (echoDeps.IsSSLDisabled 0).2).run stdoutWrite [] []).world
                  ∧ (Run echoDeps [str "tail", str "x", str "y"] (State.init 0)).2.stdout =
                    ((echoDeps.Tail ⟨some ⟨false⟩⟩ [str "x", str "y"]
                      (echoDeps.IsSSLDisabled 0).2).run stdoutWrite [] []).sink)
            ∧ (str "tail" = str "log-meta" →
                (Run echoDeps [str "tail", str "x", str "y"] (State.init 0)).1 =
                    (match ((echoDeps.Meta ⟨some ⟨false⟩⟩ [str "x", str "y"]
                        (echoDeps.IsSSLDisabled 0).2).run stdoutWrite [] []).exit with
                      | some msg => Exit.exited msg
                      | none => Exit.returned ())
                  ∧ (Run echoDeps [str "tail", str "x", str "y"] (State.init 0)).2.ext.world =
                    ((echoDeps.Meta ⟨some ⟨false⟩⟩ [str "x", str "y"]
                      (echoDeps.IsSSLDisabled 0).2).run stdoutWrite [] []).world
                  ∧ (Run echoDeps [str "tail", str "x", str "y"] (State.init 0)).2.stdout =
                    ((echoDeps.Meta ⟨some ⟨false⟩⟩ [str "x", str "y"]
                      (echoDeps.IsSSLDisabled 0).2).run stdoutWrite [] []).sink)
            ∧ (str "tail" = str "log-query" →
                (Run echoDeps [str "tail", str "x", str "y"] (State.init 0)).1 =
                    (match ((echoDeps.Query ⟨some ⟨false⟩⟩ [str "x", str "y"]
                        (echoDeps.IsSSLDisabled 0).2).run
                        (tailCallback echoDeps ⟨some ⟨false⟩⟩) stdoutWrite []
                        [Call.IsSSLDisabled, Call.Query [str "x", str "y"] Sink.stdout]).exit with
                      | some msg => Exit.exited msg
                      | none => Exit.returned ())
                  ∧ (Run echoDeps [str "tail", str "x", str "y"] (State.init 0)).2.ext.world =
                    ((echoDeps.Query ⟨some ⟨false⟩⟩ [str "x", str "y"]
                      (echoDeps.IsSSLDisabled 0).2).run
                      (tailCallback echoDeps ⟨some ⟨false⟩⟩) stdoutWrite []
                      [Call.IsSSLDisabled, Call.Query [str "x", str "y"] Sink.stdout]).ext.world
                  ∧ (Run echoDeps [str "tail", str "x", str "y"] (State.init 0)).2.ext.calls =
                    ((echoDeps.Query ⟨some ⟨false⟩⟩ [str "x", str "y"]
                      (echoDeps.IsSSLDisabled 0).2).run
                      (tailCallback echoDeps ⟨some ⟨false⟩⟩) stdoutWrite []
                      [Call.IsSSLDisabled, Call.Query [str "x", str "y"] Sink.stdout]).ext.calls
                  ∧ (Run echoDeps [str "tail", str "x", str "y"] (State.init 0)).2.stdout =
                    ((echoDeps.Query ⟨some ⟨false⟩⟩ [str "x", str "y"]
                      (echoDeps.IsSSLDisabled 0).2).run
                      (tailCallback echoDeps ⟨some ⟨false⟩⟩) stdoutWrite []
                      [Call.IsSSLDisabled, Call.Query [str "x", str "y"] Sink.stdout]).sink) :=
  ⟨by decide, by decide, by decide, by decide, by decide, by decide, by decide, by decide,
    by decide, by decide, by decide, rfl,
    Run_dispatches_advertised echoDeps 0 (str "tail") [str "x", str "y"] false (by decide) rfl⟩

/-- C10: `Run` rejects bad input without running a command.  For the empty
argument list it fails with `Expected at least 1 argument, but got 0.` and the
state, call log included, is as before.  For a non-empty list other than the
uninstall message whose first element is none of `tail`, `log-meta`,
`log-query`, in a fresh process, it fails with the error of the SSL query when
that query fails and with `Unknown Log Cache command: ` followed by the first
element when it succeeds; the call log then holds the SSL query and no call of
a handler, and nothing was written to the standard output. -/
theorem Run_rejects {σ : Type} (d : Deps σ) (g : State σ) (w : σ) (a : GoString)
    (rest : List GoString) (h1 : a ≠ str "tail") (h2 : a ≠ str "log-meta")
    (h3 : a ≠ str "log-query") (hU : a :: rest ≠ [str "CLI-MESSAGE-UNINSTALL"]) :
    Run d [] g = (.exited (str "Expected at least 1 argument, but got 0."), g)
      ∧ (Run d (a :: rest) (State.init w)).1 =
          (match (d.IsSSLDisabled w).1 with
            | .ok _ => .exited (str "Unknown Log Cache command: " ++ a)
            | .error err => .exited err)
      ∧ (Run d (a :: rest) (State.init w)).2.ext.calls = [Call.IsSSLDisabled]
      ∧ (Run d (a :: rest) (State.init w)).2.stdout = [] := by
  have ht : mapSet commands (str "log-query") Command.logQuery a = none := by
    simp [mapSet, commands, h1, h2, h3]
  refine ⟨Run_nil_eq d g, ?_, ?_, ?_⟩
  all_goals
    rw [Run_cons_eq d a rest _ hU]
    simp only [State.init, ht]
    cases (d.IsSSLDisabled w).1 <;> rfl

/-- C10 on the sample environments, for the unknown command `bogus`, with a
succeeding and with a failing SSL query. -/
theorem Run_rejects_witness :
    (Run sampleDeps [str "bogus", str "x"] (State.init 0)).1
        = .exited (str "Unknown Log Cache command: bogus")
      ∧ (Run sampleDepsNoSSL [str "bogus", str "x"] (State.init 0)).1
        = .exited (str "not logged in")
      ∧ (Run sampleDepsNoSSL [str "bogus", str "x"] (State.init 0)).2.ext.calls
        = [Call.IsSSLDisabled]
      ∧ (Run sampleDeps [] (State.init 0)
            = (.exited (str "Expected at least 1 argument, but got 0."), State.init 0)
        ∧ (Run sampleDeps [str "bogus", str "x"] (State.init 0)).1 =
            (match (sampleDeps.IsSSLDisabled 0).1 with
              | .ok _ => .exited (str "Unknown Log Cache command: " ++ str "bogus")
              | .error err => .exited err)
        ∧ (Run sampleDeps [str "bogus", str "x"] (State.init 0)).2.ext.calls
            = [Call.IsSSLDisabled]
        ∧ (Run sampleDeps [str "bogus", str "x"] (State.init 0)).2.stdout = []) :=
  ⟨by decide, by decide, by decide,
    Run_rejects sampleDeps (State.init 0) 0 (str "bogus") [str "x"]
      (by decide) (by decide) (by decide) (by decide)⟩

/-! ## The merge of the Range-Query Bridge -/

theorem keyLE_timestamp (a b : Nat × Envelope) (h : keyLE a b) :
    a.2.timestamp ≤ b.2.timestamp := by
  rcases h with h | ⟨h, _⟩
  · exact le_of_lt h
  · exact le_of_eq h

theorem keyLE_total (a b : Nat × Envelope) : keyLE a b ∨ keyLE b a := by
  unfold keyLE
  rcases lt_trichotomy a.2.timestamp b.2.timestamp with h | h | h
  · exact Or.inl (Or.inl h)
  · rcases Nat.le_total a.1 b.1 with h2 | h2
    · exact Or.inl (Or.inr ⟨h, h2⟩)
    · exact Or.inr (Or.inr ⟨h.symm, h2⟩)
  · exact Or.inr (Or.inl h)

theorem keyLE_trans (a b c : Nat × Envelope) : keyLE a b → keyLE b c → keyLE a c := by
  unfold keyLE
  rintro (h1 | ⟨h1, h1'⟩) (h2 | ⟨h2, h2'⟩)
  · exact Or.inl (lt_trans h1 h2)
  · exact Or.inl (h2 ▸ h1)
  · exact Or.inl (h1 ▸ h2)
  · exact Or.inr ⟨h1.trans h2, le_trans h1' h2'⟩

theorem bridgeMerge_pairwise (perSource : List (List Envelope)) :
    (bridgeMerge perSource).Pairwise (fun a b => a.timestamp ≤ b.timestamp) := by
  unfold bridgeMerge
  haveI : IsTotal (Nat × Envelope) keyLE := ⟨keyLE_total⟩
  haveI : IsTrans (Nat × Envelope) keyLE := ⟨keyLE_trans⟩
  have hs : (perSource.flatten.enum.insertionSort keyLE).Pairwise keyLE :=
    List.sorted_insertionSort keyLE _
  exact List.Pairwise.map Prod.snd keyLE_timestamp hs

theorem bridgeMerge_perm (perSource : List (List Envelope)) :
    (bridgeMerge perSource).Perm perSource.flatten := by
  unfold bridgeMerge
  have h := (List.perm_insertionSort keyLE perSource.flatten.enum).map Prod.snd
  rwa [List.enum_map_snd] at h

/-- C7: the result of the Range-Query Bridge is ordered by timestamp across
sources: whenever the envelope at position `i` has a smaller timestamp than the
one at position `j`, then `i < j`, for every tail streamer and every list of
sources in whatever order they were queried. -/
theorem evaluate_ordered (tailStreamer : GoString → Int → Int → List Envelope)
    (sources : List GoString) (start stop : Int) (i j : Nat)
    (hi : i < (evaluate tailStreamer sources start stop).length)
    (hj : j < (evaluate tailStreamer sources start stop).length)
    (h : (evaluate tailStreamer sources start stop)[i].timestamp
      < (evaluate tailStreamer sources start stop)[j].timestamp) :
    i < j := by
  have hp := bridgeMerge_pairwise (sources.map (fun s => tailStreamer s start stop))
  rw [List.pairwise_iff_getElem] at hp
  by_contra hij
  rcases Nat.lt_or_eq_of_le (Nat.le_of_not_lt hij) with hlt | heq
  · have := hp j i hj hi hlt
    unfold evaluate at h
    omega
  · subst heq
    exact lt_irrefl _ h

/-- C7 on the scenario of section 8: source `A` with one envelope at `t=5` and
source `B` with one at `t=3` give `[B(t=3), A(t=5)]`, whichever source is
queried first. -/
theorem evaluate_ordered_witness :
    evaluate scenarioStreamer [str "A", str "B"] 0 10
        = [⟨str "B", 3, str "b"⟩, ⟨str "A", 5, str "a"⟩]
      ∧ evaluate scenarioStreamer [str "B", str "A"] 0 10
        = [⟨str "B", 3, str "b"⟩, ⟨str "A", 5, str "a"⟩]
      ∧ 0 < 1 :=
  ⟨by decide, by decide,
    evaluate_ordered scenarioStreamer [str "A", str "B"] 0 10 0 1 (by decide) (by decide)
      (by decide)⟩

end LogCacheCLI
